import Mathlib

/-!
Shallow embedding of `src/esp_neopixel.c`: a WS2812B NeoPixel driver NIF.
The C file defines timing constants, a bit encoder `neopixel_buf_to_rmt_items`
that turns bytes into RMT pulse items, and two NIF entry points
`nif_rmt_neopixel_init` and `nif_rmt_neopixel_show` operating on a global
session `g_state`.  Machine integers are modelled as `Int`/`Nat` (the values
involved are tiny, far from any overflow), buffers as `List`s, the global
session as an `Option NeopixelState` threaded explicitly, and interactions
with the allocator and the RMT peripheral as an explicit event trace.
-/

/-- RMT tick period in nanoseconds (`RMT_TICK_NS`). -/
def RMT_TICK_NS : Nat := 25

/-- 0 bit high time in nanoseconds (`WS2812_T0H_NS`). -/
def WS2812_T0H_NS : Nat := 350

/-- 0 bit low time in nanoseconds (`WS2812_T0L_NS`). -/
def WS2812_T0L_NS : Nat := 900

/-- 1 bit high time in nanoseconds (`WS2812_T1H_NS`). -/
def WS2812_T1H_NS : Nat := 900

/-- 1 bit low time in nanoseconds (`WS2812_T1L_NS`). -/
def WS2812_T1L_NS : Nat := 350

/-- Nanoseconds to RMT ticks, C macro `NS_TO_TICKS(ns) = (ns) / RMT_TICK_NS`
(integer division). -/
def NS_TO_TICKS (ns : Nat) : Nat := ns / RMT_TICK_NS

/-- One `rmt_item32_t`: two (level, duration) phases. -/
structure RmtItem where
  level0 : Nat
  duration0 : Nat
  level1 : Nat
  duration1 : Nat
deriving DecidableEq

/-- The item written by the body of the encoder loop for one bit: the
`if (byte & (1 << (7 - j)))` branch writes the T1 pair, the `else` branch
the T0 pair; both put level 1 first and level 0 second. -/
def encBit (bit : Bool) : RmtItem :=
  if bit then
    { level0 := 1, duration0 := NS_TO_TICKS WS2812_T1H_NS,
      level1 := 0, duration1 := NS_TO_TICKS WS2812_T1L_NS }
  else
    { level0 := 1, duration0 := NS_TO_TICKS WS2812_T0H_NS,
      level1 := 0, duration1 := NS_TO_TICKS WS2812_T0L_NS }

/-- Inner loop of `neopixel_buf_to_rmt_items`: for `j = 0 .. 7` write
`items[i*8+j]` from bit `7-j` of `byte` (`byte & (1 << (7 - j))` is
nonzero exactly when `Nat.testBit byte (7 - j)`). -/
def writeByteItems (byte i : Nat) (items : List RmtItem) : List RmtItem :=
  (List.range 8).foldl
    (fun its j => its.set (i * 8 + j) (encBit (Nat.testBit byte (7 - j)))) items

/-- C function `neopixel_buf_to_rmt_items(buf, len, items)`: for
`i = 0 .. len-1` convert byte `buf[i]` into items `items[i*8] .. items[i*8+7]`.
Out-of-range reads of `buf` (never exercised by the callers) default to 0. -/
def neopixel_buf_to_rmt_items (buf : List Nat) (len : Nat)
    (items : List RmtItem) : List RmtItem :=
  (List.range len).foldl
    (fun its i => writeByteItems (buf.getD i 0) i its) items

/-- Pulse items produced for a single byte, most-significant bit first. -/
def encodeByte (b : Nat) : List RmtItem :=
  (List.range 8).map (fun j => encBit (Nat.testBit b (7 - j)))

/-- Pulse items produced for the first `len` bytes of `buf`, in order. -/
def encodeN (buf : List Nat) : Nat → List RmtItem
  | 0 => []
  | n + 1 => encodeN buf n ++ encodeByte (buf.getD n 0)

/-- Erlang-style terms, as far as the two NIFs inspect them: integers and
binaries; other term shapes are irrelevant to this code. -/
inductive Term where
  | integer : Int → Term
  | binary : List Nat → Term
deriving DecidableEq

/-- C `term_is_integer`. -/
def term_is_integer : Term → Bool
  | .integer _ => true
  | _ => false

/-- C `term_is_binary`. -/
def term_is_binary : Term → Bool
  | .binary _ => true
  | _ => false

/-- C `term_to_int` (only ever called on integer terms). -/
def term_to_int : Term → Int
  | .integer i => i
  | _ => 0

/-- C `term_binary_data` (only ever called on binary terms). -/
def term_binary_data : Term → List Nat
  | .binary d => d
  | _ => []

/-- C `term_binary_size`. -/
def term_binary_size (t : Term) : Nat := (term_binary_data t).length

/-- Result terms the two NIFs can return. -/
inductive NifResult where
  | BADARITY
  | BADARG
  | MEMORY_ERROR_ATOM
  | ERROR_ATOM
  | OK_ATOM
deriving DecidableEq

/-- RMT mode field of `rmt_config_t`. -/
inductive RmtMode where
  | tx
  | rx
deriving DecidableEq

/-- The `tx_config` sub-struct of `rmt_config_t`. -/
structure RmtTxConfig where
  loop_en : Bool
  carrier_en : Bool
  idle_output_en : Bool
  idle_level : Nat
deriving DecidableEq

/-- The fields of `rmt_config_t` that `nif_rmt_neopixel_init` sets. -/
structure RmtConfig where
  rmt_mode : RmtMode
  channel : Nat
  clk_div : Nat
  gpio_num : Int
  mem_block_num : Nat
  tx_config : RmtTxConfig
deriving DecidableEq

/-- The `neopixel_state_t` record behind `g_state`: pin, LED count and the
two heap buffers.  `pixels` holds byte values, `items` holds RMT items. -/
structure NeopixelState where
  pin : Int
  num_leds : Int
  pixels : List Nat
  items : List RmtItem
deriving DecidableEq

/-- Observable interactions with the allocator and the RMT peripheral, in
program order.  Allocation events record whether the call succeeded; free
events correspond to the C `free` calls on the record and the two buffers. -/
inductive Event where
  | free_pixels
  | free_items
  | free_record
  | alloc_record (ok : Bool)
  | alloc_pixels (size : Nat) (ok : Bool)
  | alloc_items (size : Nat) (ok : Bool)
  | rmt_config_call (cfg : RmtConfig)
  | rmt_driver_install
  | rmt_write_items (item_num : Nat) (wait_tx_done : Bool)
  | rmt_wait_tx_done
deriving DecidableEq

/-- C `nif_rmt_neopixel_init`.  `g` is the global `g_state` on entry; the
three booleans are the allocator oracle: whether `malloc(sizeof state)`,
`calloc(num_leds*3, 1)` and `calloc(num_leds*3*8, 4)` succeed.  Returns the
NIF result term, the new `g_state`, and the event trace of the call. -/
def nif_rmt_neopixel_init (g : Option NeopixelState)
    (recOk pixOk itemsOk : Bool) :
    List Term → NifResult × Option NeopixelState × List Event
  | [pin_term, num_leds_term] =>
    if !(term_is_integer pin_term) || !(term_is_integer num_leds_term) then
      (.BADARG, g, [])
    else
      let pin := term_to_int pin_term
      let num_leds := term_to_int num_leds_term
      let ev0 : List Event :=
        match g with
        | some _ => [.free_pixels, .free_items, .free_record]
        | none => []
      if recOk = false then
        (.MEMORY_ERROR_ATOM, none, ev0 ++ [.alloc_record false])
      else
        let pixSize : Nat := (num_leds * 3).toNat
        if pixOk = false then
          (.MEMORY_ERROR_ATOM, none,
            ev0 ++ [.alloc_record true, .alloc_pixels pixSize false,
                    .free_record])
        else
          let itemSize : Nat := (num_leds * 3 * 8).toNat
          if itemsOk = false then
            (.MEMORY_ERROR_ATOM, none,
              ev0 ++ [.alloc_record true, .alloc_pixels pixSize true,
                      .alloc_items itemSize false, .free_pixels, .free_record])
          else
            let cfg : RmtConfig :=
              { rmt_mode := .tx, channel := 0, clk_div := 1, gpio_num := pin,
                mem_block_num := 1,
                tx_config := { loop_en := false, carrier_en := false,
                               idle_output_en := true, idle_level := 0 } }
            (.OK_ATOM,
              some { pin := pin, num_leds := num_leds,
                     pixels := List.replicate pixSize 0,
                     items := List.replicate itemSize ⟨0, 0, 0, 0⟩ },
              ev0 ++ [.alloc_record true, .alloc_pixels pixSize true,
                      .alloc_items itemSize true, .rmt_config_call cfg,
                      .rmt_driver_install])
  | _ => (.BADARITY, g, [])

/-- C `nif_rmt_neopixel_show`.  `g` is the global `g_state` on entry. -/
def nif_rmt_neopixel_show (g : Option NeopixelState) :
    List Term → NifResult × Option NeopixelState × List Event
  | [binary_term] =>
    if !(term_is_binary binary_term) then
      (.BADARG, g, [])
    else
      match g with
      | none => (.ERROR_ATOM, none, [])
      | some st =>
        let buffer := term_binary_data binary_term
        let byte_count0 : Int := (term_binary_size binary_term : Int)
        let byte_count : Int :=
          if byte_count0 > st.num_leds * 3 then st.num_leds * 3 else byte_count0
        let bc : Nat := byte_count.toNat
        let pixels2 := buffer.take bc ++ st.pixels.drop bc
        let items2 := neopixel_buf_to_rmt_items pixels2 bc st.items
        (.OK_ATOM,
          some { st with pixels := pixels2, items := items2 },
          [.rmt_write_items (bc * 8) false, .rmt_wait_tx_done])
  | _ => (.BADARITY, g, [])

/-! ### Encoder structure lemmas -/

/-- Lists of length at least 8 expose their first eight elements. -/
theorem cons8_of_le_length {α : Type} (l : List α) (hl : 8 ≤ l.length) :
    ∃ x0 x1 x2 x3 x4 x5 x6 x7 t,
      l = x0 :: x1 :: x2 :: x3 :: x4 :: x5 :: x6 :: x7 :: t := by
  rcases l with _ | ⟨x0, l⟩
  · simp at hl
  rcases l with _ | ⟨x1, l⟩
  · simp at hl
  rcases l with _ | ⟨x2, l⟩
  · simp at hl
  rcases l with _ | ⟨x3, l⟩
  · simp at hl
  rcases l with _ | ⟨x4, l⟩
  · simp at hl
  rcases l with _ | ⟨x5, l⟩
  · simp at hl
  rcases l with _ | ⟨x6, l⟩
  · simp at hl
  rcases l with _ | ⟨x7, l⟩
  · simp at hl
  exact ⟨x0, x1, x2, x3, x4, x5, x6, x7, l, rfl⟩

/-- Setting at offset `P.length + n` in `P ++ t` sets position `n` of `t`. -/
theorem set_append_shift {α : Type} (P t : List α) (n : Nat) (v : α) :
    (P ++ t).set (P.length + n) v = P ++ t.set n v := by
  rw [List.set_append_right _ _ (Nat.le_add_right _ _), Nat.add_sub_cancel_left]

/-- The inner encoder loop overwrites exactly the eight items at offsets
`i*8 .. i*8+7` with the encoding of `byte`, leaving everything else alone. -/
theorem writeByteItems_eq (b i : Nat) (P l : List RmtItem)
    (hP : P.length = i * 8) (hl : 8 ≤ l.length) :
    writeByteItems b i (P ++ l) = P ++ (encodeByte b ++ l.drop 8) := by
  obtain ⟨x0, x1, x2, x3, x4, x5, x6, x7, t, rfl⟩ := cons8_of_le_length l hl
  simp only [writeByteItems,
    show List.range 8 = [0, 1, 2, 3, 4, 5, 6, 7] from rfl,
    List.foldl_cons, List.foldl_nil]
  rw [← hP]
  rw [set_append_shift, set_append_shift, set_append_shift, set_append_shift,
    set_append_shift, set_append_shift, set_append_shift, set_append_shift]
  rfl

/-- Eight items per byte. -/
theorem encodeByte_length (b : Nat) : (encodeByte b).length = 8 := by
  simp [encodeByte]

/-- Eight items per encoded byte, `len` bytes. -/
theorem encodeN_length (buf : List Nat) : ∀ n, (encodeN buf n).length = n * 8
  | 0 => rfl
  | n + 1 => by
    simp [encodeN, encodeN_length buf n, encodeByte_length]
    omega

/-- The encoder loop rewrites exactly the first `len * 8` items with the
encodings of the first `len` bytes and leaves the tail of `items` intact. -/
theorem buf_to_rmt_items_eq (buf : List Nat) :
    ∀ (len : Nat) (items : List RmtItem), len * 8 ≤ items.length →
      neopixel_buf_to_rmt_items buf len items =
        encodeN buf len ++ items.drop (len * 8)
  | 0, items, _ => by simp [neopixel_buf_to_rmt_items, encodeN]
  | n + 1, items, h => by
    have h8 : n * 8 ≤ items.length := by omega
    have ih := buf_to_rmt_items_eq buf n items h8
    unfold neopixel_buf_to_rmt_items at ih ⊢
    rw [List.range_succ, List.foldl_append, List.foldl_cons, List.foldl_nil]
    rw [ih]
    rw [writeByteItems_eq _ _ _ _ (encodeN_length buf n)
      (by simp [List.length_drop]; omega)]
    rw [List.drop_drop]
    simp [encodeN, Nat.succ_mul, List.append_assoc]

/-- The encoder loop never changes the length of the items buffer. -/
theorem buf_to_rmt_items_length (buf : List Nat) (len : Nat)
    (items : List RmtItem) (h : len * 8 ≤ items.length) :
    (neopixel_buf_to_rmt_items buf len items).length = items.length := by
  rw [buf_to_rmt_items_eq _ _ _ h]
  simp [encodeN_length]
  omega

/-- Item `j` of an encoded byte encodes bit `7 - j` of that byte. -/
theorem encodeByte_getD (b j : Nat) (hj : j < 8) (d : RmtItem) :
    (encodeByte b).getD j d = encBit (Nat.testBit b (7 - j)) := by
  interval_cases j <;> rfl

/-- Item `i*8 + j` of the encoded prefix encodes bit `7 - j` of byte `i`. -/
theorem encodeN_getD (buf : List Nat) :
    ∀ (len i j : Nat), i < len → j < 8 → ∀ d : RmtItem,
      (encodeN buf len).getD (i * 8 + j) d =
        encBit (Nat.testBit (buf.getD i 0) (7 - j))
  | 0, i, _, hi, _, _ => absurd hi (Nat.not_lt_zero i)
  | n + 1, i, j, hi, hj, d => by
    rcases Nat.lt_or_ge i n with h | h
    · have hlt : i * 8 + j < (encodeN buf n).length := by
        rw [encodeN_length]
        omega
      rw [encodeN, List.getD_eq_getElem?_getD, List.getElem?_append_left hlt,
        ← List.getD_eq_getElem?_getD]
      exact encodeN_getD buf n i j h hj d
    · have hin : i = n := by omega
      subst hin
      rw [encodeN, List.getD_eq_getElem?_getD,
        List.getElem?_append_right (by rw [encodeN_length]; omega)]
      rw [encodeN_length]
      have hidx : i * 8 + j - i * 8 = j := by omega
      rw [hidx, ← List.getD_eq_getElem?_getD]
      exact encodeByte_getD _ j hj d

/-- Within the rewritten region, item `i*8 + j` of the encoder output is the
pulse pair for bit `7 - j` (MSB first) of byte `i` of the input. -/
theorem buf_to_rmt_items_getD_low (buf : List Nat) (len : Nat)
    (items : List RmtItem) (h : len * 8 ≤ items.length)
    (i j : Nat) (hi : i < len) (hj : j < 8) (d : RmtItem) :
    (neopixel_buf_to_rmt_items buf len items).getD (i * 8 + j) d =
      encBit (Nat.testBit (buf.getD i 0) (7 - j)) := by
  rw [buf_to_rmt_items_eq _ _ _ h, List.getD_eq_getElem?_getD,
    List.getElem?_append_left (by rw [encodeN_length]; omega),
    ← List.getD_eq_getElem?_getD]
  exact encodeN_getD buf len i j hi hj d

/-- Beyond the rewritten region the encoder output keeps the old items. -/
theorem buf_to_rmt_items_getD_high (buf : List Nat) (len : Nat)
    (items : List RmtItem) (h : len * 8 ≤ items.length)
    (k : Nat) (hk : len * 8 ≤ k) (d : RmtItem) :
    (neopixel_buf_to_rmt_items buf len items).getD k d = items.getD k d := by
  rw [buf_to_rmt_items_eq _ _ _ h, List.getD_eq_getElem?_getD,
    List.getElem?_append_right (by rw [encodeN_length]; omega)]
  rw [encodeN_length, List.getElem?_drop]
  have hidx : len * 8 + (k - len * 8) = k := by omega
  rw [hidx, ← List.getD_eq_getElem?_getD]

/-! ### Claim theorems -/

/-- C1: for every byte sequence the encoder emits exactly 8 pulse items per
input byte, in order, visiting bits MSB (position 7) first: the output keeps
the buffer length, and entry `i*8 + j` is the high-then-low pair
(level 1 phase first, level 0 phase second) with durations T1H/T1L when bit
`7 - j` of byte `i` is set and T0H/T0L when it is clear. -/
theorem encoder_eight_items_msb_first (buf : List Nat) (items : List RmtItem)
    (h : buf.length * 8 ≤ items.length) :
    (neopixel_buf_to_rmt_items buf buf.length items).length = items.length ∧
    ∀ i, i < buf.length → ∀ j, j < 8 →
      (neopixel_buf_to_rmt_items buf buf.length items).getD (i * 8 + j)
          (RmtItem.mk 0 0 0 0) =
        (if Nat.testBit (buf.getD i 0) (7 - j) then
          { level0 := 1, duration0 := NS_TO_TICKS WS2812_T1H_NS,
            level1 := 0, duration1 := NS_TO_TICKS WS2812_T1L_NS }
         else
          { level0 := 1, duration0 := NS_TO_TICKS WS2812_T0H_NS,
            level1 := 0, duration1 := NS_TO_TICKS WS2812_T0L_NS }) := by
  refine ⟨buf_to_rmt_items_length _ _ _ h, fun i hi j hj => ?_⟩
  rw [buf_to_rmt_items_getD_low _ _ _ h i j hi hj]
  rfl

/-- Witness for C1 at `buf = [255, 0, 128]` in a 24-item buffer: the very
first emitted item is the T1H/T1L pair (bit 7 of `0xFF` is set). -/
theorem encoder_eight_items_msb_first_witness :
    ([255, 0, 128] : List Nat).length * 8 ≤
      (List.replicate 24 (RmtItem.mk 0 0 0 0)).length ∧
    (neopixel_buf_to_rmt_items [255, 0, 128] 3
        (List.replicate 24 (RmtItem.mk 0 0 0 0))).getD 0 (RmtItem.mk 0 0 0 0) =
      { level0 := 1, duration0 := NS_TO_TICKS WS2812_T1H_NS,
        level1 := 0, duration1 := NS_TO_TICKS WS2812_T1L_NS } := by
  refine ⟨by decide, ?_⟩
  have h := (encoder_eight_items_msb_first [255, 0, 128]
    (List.replicate 24 (RmtItem.mk 0 0 0 0)) (by decide)).2 0 (by decide)
    0 (by decide)
  simpa using h

/-- C4: calling `show` with a binary argument while no session exists
returns the generic error and performs no writes at all: the state is
untouched and the event trace is empty (no buffer writes, no RMT calls). -/
theorem show_uninitialized_no_writes (data : List Nat) :
    nif_rmt_neopixel_show none [Term.binary data] = (.ERROR_ATOM, none, []) :=
  rfl

/-- C9: the bit period is symbol-independent: with the compiled constants,
after integer nanosecond-to-tick conversion, the encoder's high plus low
duration for a 0-bit equals that for a 1-bit (and the raw tick sums agree). -/
theorem bit_period_balanced :
    (encBit false).duration0 + (encBit false).duration1 =
      (encBit true).duration0 + (encBit true).duration1 ∧
    NS_TO_TICKS WS2812_T0H_NS + NS_TO_TICKS WS2812_T0L_NS =
      NS_TO_TICKS WS2812_T1H_NS + NS_TO_TICKS WS2812_T1L_NS := by
  decide

/-- C10: argument errors take priority over the session-state check in both
NIFs: a wrong argument count yields BADARITY and a wrong argument type
yields BADARG, for every session state including none, with the state
returned unchanged and an empty event trace (nothing read or written). -/
theorem arg_checks_precede_state :
    (∀ (g : Option NeopixelState) (argv : List Term), argv.length ≠ 1 →
      nif_rmt_neopixel_show g argv = (.BADARITY, g, [])) ∧
    (∀ (g : Option NeopixelState) (t : Term), term_is_binary t = false →
      nif_rmt_neopixel_show g [t] = (.BADARG, g, [])) ∧
    (∀ (g : Option NeopixelState) (r p i : Bool) (argv : List Term),
      argv.length ≠ 2 →
      nif_rmt_neopixel_init g r p i argv = (.BADARITY, g, [])) ∧
    (∀ (g : Option NeopixelState) (r p i : Bool) (t1 t2 : Term),
      (term_is_integer t1 && term_is_integer t2) = false →
      nif_rmt_neopixel_init g r p i [t1, t2] = (.BADARG, g, [])) := by
  refine ⟨?_, ?_, ?_, ?_⟩
  · intro g argv h
    rcases argv with _ | ⟨t1, _ | ⟨t2, rest⟩⟩
    · rfl
    · exact absurd rfl h
    · rfl
  · intro g t h
    simp [nif_rmt_neopixel_show, h]
  · intro g r p i argv h
    rcases argv with _ | ⟨t1, _ | ⟨t2, _ | ⟨t3, rest⟩⟩⟩
    · rfl
    · rfl
    · exact absurd rfl h
    · rfl
  · intro g r p i t1 t2 h
    cases t1 <;> cases t2
    · simp [term_is_integer] at h
    · rfl
    · rfl
    · rfl

/-- Witness for C10: `show` on a non-binary argument with no session returns
BADARG (not the not-initialized error), leaving the state untouched. -/
theorem arg_checks_precede_state_witness :
    nif_rmt_neopixel_show none [Term.integer 7] = (.BADARG, none, []) :=
  arg_checks_precede_state.2.1 none (Term.integer 7) rfl

/-- Counterexample for C7: a successful `initialize(pin=5, led_count=1)`
programs the peripheral with `idle_output_en = true` — the idle output is
enabled (actively driven to the idle level), not disabled as claimed. -/
theorem init_idle_output_enabled_cex :
    Event.rmt_config_call
        { rmt_mode := .tx, channel := 0, clk_div := 1, gpio_num := 5,
          mem_block_num := 1,
          tx_config := { loop_en := false, carrier_en := false,
                         idle_output_en := true, idle_level := 0 } }
      ∈ (nif_rmt_neopixel_init none true true true
          [Term.integer 5, Term.integer 1]).2.2 ∧
    ({ loop_en := false, carrier_en := false, idle_output_en := true,
       idle_level := 0 } : RmtTxConfig).idle_output_en ≠ false := by
  decide

/-- C7 (amended): every successful `initialize(pin, led_count)` programs the
peripheral with output pin = `pin`, transmit mode, idle output enabled with
idle level low (the line is driven low when idle), no hardware carrier and
no looping. -/
theorem init_programs_peripheral (g : Option NeopixelState) (p n : Int) :
    (nif_rmt_neopixel_init g true true true
        [Term.integer p, Term.integer n]).1 = .OK_ATOM ∧
    Event.rmt_config_call
        { rmt_mode := .tx, channel := 0, clk_div := 1, gpio_num := p,
          mem_block_num := 1,
          tx_config := { loop_en := false, carrier_en := false,
                         idle_output_en := true, idle_level := 0 } }
      ∈ (nif_rmt_neopixel_init g true true true
          [Term.integer p, Term.integer n]).2.2 := by
  cases g <;> simp [nif_rmt_neopixel_init, term_is_integer, term_to_int]

/-- C8: every successful `initialize(pin=P, led_count=N)` with `N > 0`
creates a session storing pin `P` and LED count `N`, a pixel buffer of
exactly `3*N` bytes, all zero, and a pulse buffer of exactly `24*N` items. -/
theorem init_success_session (g : Option NeopixelState) (p n : Int)
    (hn : 0 < n) :
    ∃ st : NeopixelState,
      (nif_rmt_neopixel_init g true true true
          [Term.integer p, Term.integer n]).1 = .OK_ATOM ∧
      (nif_rmt_neopixel_init g true true true
          [Term.integer p, Term.integer n]).2.1 = some st ∧
      st.pin = p ∧ st.num_leds = n ∧
      st.pixels.length = 3 * n.toNat ∧ (∀ b ∈ st.pixels, b = 0) ∧
      st.items.length = 24 * n.toNat := by
  refine ⟨{ pin := p, num_leds := n,
            pixels := List.replicate (n * 3).toNat 0,
            items := List.replicate (n * 3 * 8).toNat (RmtItem.mk 0 0 0 0) },
    ?_, ?_, rfl, rfl, ?_, ?_, ?_⟩
  · cases g <;> simp [nif_rmt_neopixel_init, term_is_integer]
  · cases g <;> simp [nif_rmt_neopixel_init, term_is_integer, term_to_int]
  · simp only [List.length_replicate]
    omega
  · intro b hb
    exact List.eq_of_mem_replicate hb
  · simp only [List.length_replicate]
    omega

/-- Witness for C8 at `initialize(pin=5, led_count=1)` from the empty
session state. -/
theorem init_success_session_witness :
    (0 : Int) < 1 ∧
    ∃ st : NeopixelState,
      (nif_rmt_neopixel_init none true true true
          [Term.integer 5, Term.integer 1]).1 = .OK_ATOM ∧
      (nif_rmt_neopixel_init none true true true
          [Term.integer 5, Term.integer 1]).2.1 = some st ∧
      st.pin = 5 ∧ st.num_leds = 1 ∧
      st.pixels.length = 3 * (1 : Int).toNat ∧ (∀ b ∈ st.pixels, b = 0) ∧
      st.items.length = 24 * (1 : Int).toNat :=
  ⟨by decide, init_success_session none 5 1 (by decide)⟩

/-- Evaluation of `show` on a live session, directly from the definition:
the truncated byte count `bc` is `min(len(data), num_leds*3)` computed as in
the C source, and the call copies, encodes and transmits `bc` bytes. -/
theorem show_some_eq (st : NeopixelState) (data : List Nat) (bc : Nat)
    (hbc : bc = (if (data.length : Int) > st.num_leds * 3 then
      st.num_leds * 3 else (data.length : Int)).toNat) :
    nif_rmt_neopixel_show (some st) [Term.binary data] =
      (.OK_ATOM,
        some { st with
          pixels := data.take bc ++ st.pixels.drop bc,
          items := neopixel_buf_to_rmt_items
            (data.take bc ++ st.pixels.drop bc) bc st.items },
        [Event.rmt_write_items (bc * 8) false, Event.rmt_wait_tx_done]) := by
  subst hbc
  rfl

/-- C2: when the binary is longer than `led_count * 3`, `show` behaves
exactly as if called on the first `led_count * 3` bytes (it reads, copies
and encodes only those), submits exactly `led_count * 3 * 8` pulse items,
and still returns success. -/
theorem show_ignores_excess (st : NeopixelState) (data : List Nat)
    (hN : 0 ≤ st.num_leds)
    (hlen : (data.length : Int) > st.num_leds * 3) :
    nif_rmt_neopixel_show (some st) [Term.binary data] =
      nif_rmt_neopixel_show (some st)
        [Term.binary (data.take (st.num_leds * 3).toNat)] ∧
    (nif_rmt_neopixel_show (some st) [Term.binary data]).1 = .OK_ATOM ∧
    (nif_rmt_neopixel_show (some st) [Term.binary data]).2.2 =
      [Event.rmt_write_items ((st.num_leds * 3).toNat * 8) false,
       Event.rmt_wait_tx_done] := by
  have hle : (st.num_leds * 3).toNat ≤ data.length := by omega
  have htk : (data.take (st.num_leds * 3).toNat).length =
      (st.num_leds * 3).toNat := by
    rw [List.length_take, Nat.min_eq_left hle]
  have hng : ¬(((data.take (st.num_leds * 3).toNat).length : Int) >
      st.num_leds * 3) := by
    rw [htk]; omega
  have hb1 : ((st.num_leds * 3).toNat : Nat) =
      (if (data.length : Int) > st.num_leds * 3 then
        st.num_leds * 3 else (data.length : Int)).toNat := by
    rw [if_pos hlen]
  have hb2 : ((st.num_leds * 3).toNat : Nat) =
      (if (((data.take (st.num_leds * 3).toNat).length : Int)) >
          st.num_leds * 3 then
        st.num_leds * 3
      else ((data.take (st.num_leds * 3).toNat).length : Int)).toNat := by
    rw [if_neg hng, htk, Int.toNat_natCast]
  refine ⟨?_, ?_, ?_⟩
  · rw [show_some_eq st data _ hb1,
      show_some_eq st (data.take (st.num_leds * 3).toNat) _ hb2]
    simp [List.take_take]
  · rw [show_some_eq st data _ hb1]
  · rw [show_some_eq st data _ hb1]

/-- Witness for C2: a one-LED session given four bytes behaves as if given
only the first three, and submits exactly 24 pulse items. -/
theorem show_ignores_excess_witness :
    (0 : Int) ≤
      (NeopixelState.mk 5 1 [0, 0, 0]
        (List.replicate 24 (RmtItem.mk 0 0 0 0))).num_leds ∧
    ((([1, 2, 3, 4] : List Nat).length : Int) >
      (NeopixelState.mk 5 1 [0, 0, 0]
        (List.replicate 24 (RmtItem.mk 0 0 0 0))).num_leds * 3) ∧
    nif_rmt_neopixel_show
        (some (NeopixelState.mk 5 1 [0, 0, 0]
          (List.replicate 24 (RmtItem.mk 0 0 0 0))))
        [Term.binary [1, 2, 3, 4]] =
      nif_rmt_neopixel_show
        (some (NeopixelState.mk 5 1 [0, 0, 0]
          (List.replicate 24 (RmtItem.mk 0 0 0 0))))
        [Term.binary ([1, 2, 3, 4].take (((1 : Int) * 3).toNat))] :=
  ⟨by decide, by decide,
    (show_ignores_excess
      (NeopixelState.mk 5 1 [0, 0, 0] (List.replicate 24 (RmtItem.mk 0 0 0 0)))
      [1, 2, 3, 4] (by decide) (by decide)).1⟩

/-- C3: when the binary is shorter than `led_count * 3`, `show` succeeds,
overwrites only the first `len(data)` pixel bytes and the first
`len(data) * 8` pulse items, submits `len(data) * 8` items, and leaves the
pin, the LED count, both buffer lengths, every pixel byte at index
`≥ len(data)` and every pulse item at index `≥ len(data) * 8` unchanged. -/
theorem show_short_input_carryover (st : NeopixelState) (data : List Nat)
    (hpix : st.pixels.length = (st.num_leds * 3).toNat)
    (hitems : st.items.length = (st.num_leds * 3 * 8).toNat)
    (hlen : (data.length : Int) < st.num_leds * 3) :
    ∃ st2 : NeopixelState,
      nif_rmt_neopixel_show (some st) [Term.binary data] =
        (.OK_ATOM, some st2,
         [Event.rmt_write_items (data.length * 8) false,
          Event.rmt_wait_tx_done]) ∧
      st2.pin = st.pin ∧ st2.num_leds = st.num_leds ∧
      st2.pixels.length = st.pixels.length ∧
      st2.items.length = st.items.length ∧
      st2.pixels.take data.length = data ∧
      (∀ k, data.length ≤ k → st2.pixels.getD k 0 = st.pixels.getD k 0) ∧
      (∀ k, data.length * 8 ≤ k →
        st2.items.getD k (RmtItem.mk 0 0 0 0) =
          st.items.getD k (RmtItem.mk 0 0 0 0)) := by
  have hng : ¬((data.length : Int) > st.num_leds * 3) := by omega
  have hb : (data.length : Nat) =
      (if (data.length : Int) > st.num_leds * 3 then
        st.num_leds * 3 else (data.length : Int)).toNat := by
    rw [if_neg hng, Int.toNat_natCast]
  have hdle : data.length ≤ st.pixels.length := by omega
  have hi8 : data.length * 8 ≤ st.items.length := by omega
  refine ⟨_, show_some_eq st data data.length hb, rfl, rfl, ?_, ?_, ?_, ?_, ?_⟩
  · simp only [List.take_length, List.length_append, List.length_take,
      List.length_drop]
    omega
  · exact buf_to_rmt_items_length _ _ _
      (by simpa [List.take_length, List.length_append, List.length_drop] using
        (by omega : data.length * 8 ≤ st.items.length))
  · rw [List.take_length, List.take_append_of_le_length (Nat.le_refl _),
      List.take_length]
  · intro k hk
    rw [List.take_length, List.getD_eq_getElem?_getD,
      List.getElem?_append_right (by omega : data.length ≤ k),
      List.getElem?_drop]
    have hidx : data.length + (k - data.length) = k := by omega
    rw [hidx, ← List.getD_eq_getElem?_getD]
  · intro k hk
    exact buf_to_rmt_items_getD_high _ _ _ hi8 k hk _

/-- Witness for C3: a two-LED session (buffers 6 and 48 long, pixels all 9)
shown only 3 bytes keeps pixel bytes 3..5 and items 24..47 unchanged. -/
theorem show_short_input_carryover_witness :
    ((NeopixelState.mk 5 2 [9, 9, 9, 9, 9, 9]
        (List.replicate 48 (RmtItem.mk 0 0 0 0))).pixels.length =
      ((2 : Int) * 3).toNat) ∧
    ((NeopixelState.mk 5 2 [9, 9, 9, 9, 9, 9]
        (List.replicate 48 (RmtItem.mk 0 0 0 0))).items.length =
      ((2 : Int) * 3 * 8).toNat) ∧
    ((([1, 2, 3] : List Nat).length : Int) < (2 : Int) * 3) ∧
    (∃ st2 : NeopixelState,
      nif_rmt_neopixel_show
          (some (NeopixelState.mk 5 2 [9, 9, 9, 9, 9, 9]
            (List.replicate 48 (RmtItem.mk 0 0 0 0))))
          [Term.binary [1, 2, 3]] =
        (.OK_ATOM, some st2,
         [Event.rmt_write_items (3 * 8) false, Event.rmt_wait_tx_done]) ∧
      st2.pin = 5 ∧ st2.num_leds = 2 ∧
      st2.pixels.length = 6 ∧ st2.items.length = 48 ∧
      st2.pixels.take 3 = [1, 2, 3] ∧
      (∀ k, 3 ≤ k → st2.pixels.getD k 0 =
        ([9, 9, 9, 9, 9, 9] : List Nat).getD k 0) ∧
      (∀ k, 3 * 8 ≤ k → st2.items.getD k (RmtItem.mk 0 0 0 0) =
        (List.replicate 48 (RmtItem.mk 0 0 0 0)).getD k (RmtItem.mk 0 0 0 0))) :=
  ⟨by decide, by decide, by decide,
    show_short_input_carryover
      (NeopixelState.mk 5 2 [9, 9, 9, 9, 9, 9]
        (List.replicate 48 (RmtItem.mk 0 0 0 0)))
      [1, 2, 3] (by decide) (by decide) (by decide)⟩

/-! ### Allocation accounting for the failure paths of `initialize` -/

/-- Successful session-record allocations in a trace. -/
def count_record_allocs (tr : List Event) : Nat :=
  tr.countP (fun e => match e with | .alloc_record true => true | _ => false)

/-- Session-record releases in a trace. -/
def count_record_frees (tr : List Event) : Nat :=
  tr.countP (fun e => match e with | .free_record => true | _ => false)

/-- Successful pixel-buffer allocations in a trace. -/
def count_pixels_allocs (tr : List Event) : Nat :=
  tr.countP (fun e => match e with | .alloc_pixels _ true => true | _ => false)

/-- Pixel-buffer releases in a trace. -/
def count_pixels_frees (tr : List Event) : Nat :=
  tr.countP (fun e => match e with | .free_pixels => true | _ => false)

/-- Successful pulse-buffer allocations in a trace. -/
def count_items_allocs (tr : List Event) : Nat :=
  tr.countP (fun e => match e with | .alloc_items _ true => true | _ => false)

/-- Pulse-buffer releases in a trace. -/
def count_items_frees (tr : List Event) : Nat :=
  tr.countP (fun e => match e with | .free_items => true | _ => false)

/-- Number of live sessions (0 or 1) in a global state. -/
def liveCount : Option NeopixelState → Nat
  | some _ => 1
  | none => 0

/-- C5: whenever any allocation fails during `initialize`, the call returns
the out-of-memory result, the global state is left as "no session" (so a
subsequent `show` fails with the not-initialized error), and for each of
the three resources the releases in the call's trace account for every
allocation made by this call plus the previously live session: nothing
allocated by the failing call stays allocated. -/
theorem init_alloc_failure_cleanup (g : Option NeopixelState) (p n : Int)
    (recOk pixOk itemsOk : Bool)
    (hfail : ¬(recOk = true ∧ pixOk = true ∧ itemsOk = true)) :
    (nif_rmt_neopixel_init g recOk pixOk itemsOk
        [Term.integer p, Term.integer n]).1 = .MEMORY_ERROR_ATOM ∧
    (nif_rmt_neopixel_init g recOk pixOk itemsOk
        [Term.integer p, Term.integer n]).2.1 = none ∧
    (∀ data : List Nat,
      nif_rmt_neopixel_show
          (nif_rmt_neopixel_init g recOk pixOk itemsOk
            [Term.integer p, Term.integer n]).2.1 [Term.binary data] =
        (.ERROR_ATOM, none, [])) ∧
    count_record_frees (nif_rmt_neopixel_init g recOk pixOk itemsOk
        [Term.integer p, Term.integer n]).2.2 =
      count_record_allocs (nif_rmt_neopixel_init g recOk pixOk itemsOk
        [Term.integer p, Term.integer n]).2.2 + liveCount g ∧
    count_pixels_frees (nif_rmt_neopixel_init g recOk pixOk itemsOk
        [Term.integer p, Term.integer n]).2.2 =
      count_pixels_allocs (nif_rmt_neopixel_init g recOk pixOk itemsOk
        [Term.integer p, Term.integer n]).2.2 + liveCount g ∧
    count_items_frees (nif_rmt_neopixel_init g recOk pixOk itemsOk
        [Term.integer p, Term.integer n]).2.2 =
      count_items_allocs (nif_rmt_neopixel_init g recOk pixOk itemsOk
        [Term.integer p, Term.integer n]).2.2 + liveCount g := by
  cases g <;> cases recOk <;> cases pixOk <;> cases itemsOk
  all_goals try exact ⟨rfl, rfl, fun _ => rfl, rfl, rfl, rfl⟩
  all_goals exact absurd ⟨rfl, rfl, rfl⟩ hfail

/-- Witness for C5: the pulse-buffer allocation fails during
`initialize(5, 1)` over a previously empty session state. -/
theorem init_alloc_failure_cleanup_witness :
    ¬(true = true ∧ true = true ∧ false = true) ∧
    ((nif_rmt_neopixel_init none true true false
        [Term.integer 5, Term.integer 1]).1 = .MEMORY_ERROR_ATOM ∧
    (nif_rmt_neopixel_init none true true false
        [Term.integer 5, Term.integer 1]).2.1 = none ∧
    (∀ data : List Nat,
      nif_rmt_neopixel_show
          (nif_rmt_neopixel_init none true true false
            [Term.integer 5, Term.integer 1]).2.1 [Term.binary data] =
        (.ERROR_ATOM, none, [])) ∧
    count_record_frees (nif_rmt_neopixel_init none true true false
        [Term.integer 5, Term.integer 1]).2.2 =
      count_record_allocs (nif_rmt_neopixel_init none true true false
        [Term.integer 5, Term.integer 1]).2.2 + liveCount none ∧
    count_pixels_frees (nif_rmt_neopixel_init none true true false
        [Term.integer 5, Term.integer 1]).2.2 =
      count_pixels_allocs (nif_rmt_neopixel_init none true true false
        [Term.integer 5, Term.integer 1]).2.2 + liveCount none ∧
    count_items_frees (nif_rmt_neopixel_init none true true false
        [Term.integer 5, Term.integer 1]).2.2 =
      count_items_allocs (nif_rmt_neopixel_init none true true false
        [Term.integer 5, Term.integer 1]).2.2 + liveCount none) :=
  ⟨by decide, init_alloc_failure_cleanup none 5 1 true true false (by decide)⟩

/-- C6: an `initialize` call that finds a live session first emits exactly
the three release events for that session's pixel buffer, pulse buffer and
record, and then proceeds identically to an `initialize` from the empty
state: every allocation of the new call happens strictly after the old
session is fully released, so the two sessions' allocations never coexist. -/
theorem init_replaces_session_frees_first (s : NeopixelState)
    (recOk pixOk itemsOk : Bool) (p n : Int) :
    (nif_rmt_neopixel_init (some s) recOk pixOk itemsOk
        [Term.integer p, Term.integer n]).2.2 =
      [Event.free_pixels, Event.free_items, Event.free_record] ++
        (nif_rmt_neopixel_init none recOk pixOk itemsOk
          [Term.integer p, Term.integer n]).2.2 ∧
    (nif_rmt_neopixel_init (some s) recOk pixOk itemsOk
        [Term.integer p, Term.integer n]).1 =
      (nif_rmt_neopixel_init none recOk pixOk itemsOk
        [Term.integer p, Term.integer n]).1 ∧
    (nif_rmt_neopixel_init (some s) recOk pixOk itemsOk
        [Term.integer p, Term.integer n]).2.1 =
      (nif_rmt_neopixel_init none recOk pixOk itemsOk
        [Term.integer p, Term.integer n]).2.1 := by
  cases recOk <;> cases pixOk <;> cases itemsOk <;> exact ⟨rfl, rfl, rfl⟩
